import Mathlib

/-!
Verification of `src/timer_example.c` (nRF52810 TIMER0 example).

The program is a single C file: a `start(period, handler)` routine configuring
the TIMER0 peripheral registers, a `stop()` routine tearing it down, an
interrupt handler `TIMER0_IRQHandler` incrementing a static counter once per
handled compare-match event, and a `main` that starts the timer with period 509.

We embed the program shallowly: the memory-mapped TIMER0 registers, the
interrupt-controller (NVIC) line state, the handler's static counter and the
text output channel form an explicit state record; each C routine becomes a
state-transforming function that performs the same sequence of register writes.
Machine integers (`unsigned int`, 32-bit on this target) are `Nat` reduced
`% 2^32` where a register or variable is written.
-/

namespace TimerExample

/-- Vendor header constant `TIMER_MODE_MODE_Timer` (timer mode selector). -/
def TIMER_MODE_MODE_Timer : Nat := 0

/-- Vendor header constant `TIMER_BITMODE_BITMODE_32Bit` (32-bit counting). -/
def TIMER_BITMODE_BITMODE_32Bit : Nat := 3

/-- Vendor header constant `TIMER_INTENSET_COMPARE0_Pos` (bit position of the
COMPARE[0] interrupt-enable bit). -/
def TIMER_INTENSET_COMPARE0_Pos : Nat := 16

/-- Vendor header constant `TIMER_INTENSET_COMPARE0_Enabled`. -/
def TIMER_INTENSET_COMPARE0_Enabled : Nat := 1

/-- Vendor header constant `TIMER_INTENSET_COMPARE0_Msk`. -/
def TIMER_INTENSET_COMPARE0_Msk : Nat :=
  TIMER_INTENSET_COMPARE0_Enabled <<< TIMER_INTENSET_COMPARE0_Pos

/-- The TIMER0 peripheral registers touched by the example (spec §3, §6).
`running` is the status driven by the TASKS_START / TASKS_STOP task registers,
`internalCount` the free-running count cleared by TASKS_CLEAR, and
`events_compare0` the COMPARE[0] event-pending flag. -/
structure Timer where
  mode : Nat
  prescaler : Nat
  bitmode : Nat
  cc0 : Nat
  intenset : Nat
  events_compare0 : Bool
  running : Bool
  internalCount : Nat
  deriving DecidableEq

/-- Full system state: the peripheral, the interrupt-controller line state
(enabled flag and registered handler entry point, handlers being modelled by
identifiers), the handler's static fired-event counter `count`, and the values
reported through `printf`. -/
structure Sys where
  timer : Timer
  nvicEnabled : Bool
  nvicHandler : Option Nat
  count : Nat
  output : List Nat
  deriving DecidableEq

/-- Peripheral reset state (PRESCALER resets to 4, as the source comment on
line 42 notes; all other registers reset to 0 / cleared). -/
def resetTimer : Timer :=
  { mode := 0, prescaler := 4, bitmode := 0, cc0 := 0, intenset := 0,
    events_compare0 := false, running := false, internalCount := 0 }

/-- Program-load state: peripheral at reset, interrupt line disabled and
unregistered, static counter zero-initialized, nothing printed yet. -/
def initSys : Sys :=
  { timer := resetTimer, nvicEnabled := false, nvicHandler := none,
    count := 0, output := [] }

/-- Writing the 32-bit value `w` to the INTENSET register. On this hardware
INTENSET has write-1-to-set semantics (spec §6): 1-bits enable the source,
0-bits leave the register unchanged, so no write to INTENSET can clear a bit. -/
def intensetWrite (w : Nat) (t : Timer) : Timer :=
  { t with intenset := t.intenset ||| (w % 2 ^ 32) }

/-- `start(period, handler)`, src/timer_example.c lines 32-61, one register
write per line of the source. `period` is a C `unsigned int` (32-bit on this
target); `handler` is a code address, modelled as an identifier. -/
def start (period : Nat) (handler : Nat) (s : Sys) : Sys :=
  let t0 := s.timer
  let t1 := { t0 with running := false }                        -- TASKS_STOP = 1
  let t2 := { t1 with internalCount := 0 }                      -- TASKS_CLEAR = 1
  let t3 := { t2 with mode := TIMER_MODE_MODE_Timer }           -- MODE = Timer
  let t4 := { t3 with prescaler := 4 }                          -- PRESCALER = 4
  let t5 := { t4 with bitmode := TIMER_BITMODE_BITMODE_32Bit }  -- BITMODE = 32Bit
  let t6 := { t5 with cc0 := period % 2 ^ 32 }                  -- CC[0] = period
  let t7 := intensetWrite
      (TIMER_INTENSET_COMPARE0_Enabled <<< TIMER_INTENSET_COMPARE0_Pos) t6
  let t8 := { t7 with running := true }                         -- TASKS_START = 1
  -- NVIC_EnableIRQ(handler): enable the TIMER0 line at the interrupt
  -- controller and associate it with `handler` (spec §4.1 step 7, §6).
  { s with timer := t8, nvicEnabled := true, nvicHandler := some handler }

/-- `stop()`, src/timer_example.c lines 68-78. Line 77 is the construct
`NRF_TIMER0->INTENSET ~= mask`; read as clearing the mask bit in the written
value (`&= ~mask`), the resulting write goes through the write-1-to-set
INTENSET register and therefore cannot clear any bit. -/
def stop (s : Sys) : Sys :=
  let t0 := s.timer
  let t1 := { t0 with running := false }                        -- TASKS_STOP = 1
  let t2 := { t1 with internalCount := 0 }                      -- TASKS_CLEAR = 1
  let t3 := { t2 with cc0 := 0 }                                -- CC[0] = 0
  intensetWrite ((2 ^ 32 - 1) ^^^ TIMER_INTENSET_COMPARE0_Msk &&& t3.intenset) t3
    |> fun t4 => { s with timer := t4 }

/-- `TIMER0_IRQHandler`, src/timer_example.c lines 82-88. The static
`unsigned int count` is the fired-event counter; `printf("%d\n", count++)`
reports the current value and then increments (32-bit wrap). -/
def TIMER0_IRQHandler (s : Sys) : Sys :=
  if s.timer.events_compare0 = true ∧
      s.timer.intenset &&& TIMER_INTENSET_COMPARE0_Msk ≠ 0 then
    { s with
      timer := { s.timer with events_compare0 := false },  -- EVENTS_COMPARE[0] = 0
      output := s.output ++ [s.count],
      count := (s.count + 1) % 2 ^ 32 }
  else s

/-- Entry-point identifier of `TIMER0_IRQHandler` in the vector table. -/
def timer0HandlerId : Nat := 0

/-- The vector table: run the handler registered under the given identifier. -/
def runHandler (h : Option Nat) (s : Sys) : Sys :=
  if h = some timer0HandlerId then TIMER0_IRQHandler s else s

/-- Modelled from the spec: the interrupt controller (spec §6, an external
collaborator) delivers a pending interrupt to the registered handler exactly
when the line is enabled. -/
def dispatch (s : Sys) : Sys :=
  if s.nvicEnabled = true then runHandler s.nvicHandler s else s

/-- Hardware raises the compare-match event: EVENTS_COMPARE[0] becomes
pending (spec glossary, "compare-match event"). -/
def raiseCompare (s : Sys) : Sys :=
  { s with timer := { s.timer with events_compare0 := true } }

/-- One compare-match event as delivered by hardware: the peripheral raises
the event flag and the controller dispatches the interrupt. -/
def handledEvent (s : Sys) : Sys :=
  dispatch (raiseCompare s)

/-- `n` consecutive compare-match events. -/
def handledEvents : Nat → Sys → Sys
  | 0, s => s
  | n + 1, s => handledEvents n (handledEvent s)

/-- The state right after `main` calls `start(509, TIMER0_IRQHandler)`
(src/timer_example.c line 92), generalized over the period. -/
def startedSys (period : Nat) : Sys :=
  start period timer0HandlerId initSys

/-- Claim C1: for every period P in [1, 2^32-1] and every handler, after
`start(P, h)` the compare register CC[0] equals P, the peripheral is running,
the prescaler is 4 (1-microsecond tick) and the bit-width register selects
32-bit counting, the latter two independent of P. -/
theorem C1_start_configures (P h : Nat) (s : Sys)
    (h1 : 1 ≤ P) (h2 : P ≤ 2 ^ 32 - 1) :
    (start P h s).timer.cc0 = P ∧
    (start P h s).timer.running = true ∧
    (start P h s).timer.prescaler = 4 ∧
    (start P h s).timer.bitmode = TIMER_BITMODE_BITMODE_32Bit := by
  refine ⟨?_, rfl, rfl, rfl⟩
  show P % 2 ^ 32 = P
  exact Nat.mod_eq_of_lt (by omega)

/-- Witness for C1 at P = 509, h = 0, from the reset state. -/
theorem C1_start_configures_witness :
    (start 509 0 initSys).timer.cc0 = 509 ∧
    (start 509 0 initSys).timer.running = true ∧
    (start 509 0 initSys).timer.prescaler = 4 ∧
    (start 509 0 initSys).timer.bitmode = TIMER_BITMODE_BITMODE_32Bit :=
  C1_start_configures 509 0 initSys (by decide) (by decide)

/-- Claim C3 (code bug): after `stop()` the compare register reads 0 and the
running state is false, but the COMPARE[0] interrupt-enable bit of INTENSET is
still set: the `INTENSET ~= mask` construct on line 77 cannot clear a bit of
the write-1-to-set INTENSET register. Evaluated at the failing input
`stop()` right after `start(509, TIMER0_IRQHandler)` from reset. -/
theorem C3_stop_leaves_enable_set :
    (stop (startedSys 509)).timer.cc0 = 0 ∧
    (stop (startedSys 509)).timer.running = false ∧
    (stop (startedSys 509)).timer.intenset &&& TIMER_INTENSET_COMPARE0_Msk ≠ 0 := by
  decide

/-- Claim C5: after `start(509, TIMER0_IRQHandler)` and three handled
compare-match events the printed sequence is 0, 1, 2, and CC[0] equals 509
before and after each handler invocation: the handler never writes CC[0]. -/
theorem C5_three_events_scenario :
    (handledEvents 3 (startedSys 509)).output = [0, 1, 2] ∧
    (startedSys 509).timer.cc0 = 509 ∧
    (handledEvents 1 (startedSys 509)).timer.cc0 = 509 ∧
    (handledEvents 2 (startedSys 509)).timer.cc0 = 509 ∧
    (handledEvents 3 (startedSys 509)).timer.cc0 = 509 := by
  decide

/-- Claim C6: `start(P2, h2)` right after `start(P1, h1)` leaves exactly the
state of `start(P2, h2)` alone: the unconditional TASKS_STOP / TASKS_CLEAR at
entry to `start` removes all residual configuration of the first call. -/
theorem C6_restart_overrides (P1 P2 h1 h2 : Nat) (s : Sys) :
    start P2 h2 (start P1 h1 s) = start P2 h2 s := by
  simp [start, intensetWrite, Nat.or_assoc, Nat.or_self]

/-- Claim C7: `stop()` changes only the timer peripheral's own state: the
fired-event counter and the output keep their values (in particular right
after `start(100, h)` with no event, the counter is unchanged), and the
interrupt-controller registration persists, since `stop` never issues a
controller-level disable. -/
theorem C7_stop_frame (s : Sys) (h : Nat) :
    (stop s).count = s.count ∧
    (stop s).output = s.output ∧
    (stop s).nvicEnabled = s.nvicEnabled ∧
    (stop s).nvicHandler = s.nvicHandler ∧
    (stop (start 100 h s)).count = s.count ∧
    (stop (start 100 h s)).output = s.output ∧
    (stop (start 100 h s)).nvicEnabled = true ∧
    (stop (start 100 h s)).nvicHandler = some h := by
  exact ⟨rfl, rfl, rfl, rfl, rfl, rfl, rfl, rfl⟩

/-- Claim C8: `start(P, h)` enables the TIMER0 line at the interrupt
controller and associates it with `h`; consequently, when the registered
handler is `TIMER0_IRQHandler` and a compare-match event is raised, the
controller delivers the interrupt to that handler. -/
theorem C8_nvic_registration (P h : Nat) (s : Sys) :
    (start P h s).nvicEnabled = true ∧
    (start P h s).nvicHandler = some h ∧
    dispatch (raiseCompare (start P timer0HandlerId s)) =
      TIMER0_IRQHandler (raiseCompare (start P timer0HandlerId s)) := by
  refine ⟨rfl, rfl, ?_⟩
  simp [dispatch, runHandler, raiseCompare, start]

/-- Claim C9: when at handler entry the event-pending flag is clear or the
COMPARE[0] enable bit is clear, the handler does nothing (counter, event flag
and output unchanged); when both hold, it clears the event flag, reports the
counter, and increments it — nothing else. -/
theorem C9_handler_guard (s : Sys) :
    (s.timer.events_compare0 = false ∨
        s.timer.intenset &&& TIMER_INTENSET_COMPARE0_Msk = 0 →
      TIMER0_IRQHandler s = s) ∧
    (s.timer.events_compare0 = true →
      s.timer.intenset &&& TIMER_INTENSET_COMPARE0_Msk ≠ 0 →
      TIMER0_IRQHandler s =
        { s with
          timer := { s.timer with events_compare0 := false },
          output := s.output ++ [s.count],
          count := (s.count + 1) % 2 ^ 32 }) := by
  constructor
  · intro hguard
    have hfail : ¬ (s.timer.events_compare0 = true ∧
        s.timer.intenset &&& TIMER_INTENSET_COMPARE0_Msk ≠ 0) := by
      rcases hguard with hev | hen
      · intro hc
        rw [hev] at hc
        exact Bool.false_ne_true hc.1
      · intro hc
        exact hc.2 hen
    simp only [TIMER0_IRQHandler, if_neg hfail]
  · intro hev hen
    simp only [TIMER0_IRQHandler, if_pos (And.intro hev hen)]

/-- Witness for C9: the handler is the identity on the program-load state
(no event pending), and performs the report-and-increment update on the
started state with a pending event. -/
theorem C9_handler_guard_witness :
    TIMER0_IRQHandler initSys = initSys ∧
    TIMER0_IRQHandler (raiseCompare (startedSys 509)) =
      { raiseCompare (startedSys 509) with
        timer := { (raiseCompare (startedSys 509)).timer with
                    events_compare0 := false },
        output := (raiseCompare (startedSys 509)).output ++
                    [(raiseCompare (startedSys 509)).count],
        count := ((raiseCompare (startedSys 509)).count + 1) % 2 ^ 32 } :=
  ⟨(C9_handler_guard initSys).1 (Or.inl rfl),
   (C9_handler_guard (raiseCompare (startedSys 509))).2 rfl (by decide)⟩

/-! ### Sequences of handled events

The following lemmas characterize runs of compare-match events from a state in
which the timer has been started: the interrupt line is enabled and registered
to `TIMER0_IRQHandler`, the COMPARE[0] enable bit is set, and the 32-bit
static counter is in range. -/

/-- A state in which every compare-match event is delivered and handled. -/
def Armed (s : Sys) : Prop :=
  s.nvicEnabled = true ∧
  s.nvicHandler = some timer0HandlerId ∧
  s.timer.intenset &&& TIMER_INTENSET_COMPARE0_Msk ≠ 0 ∧
  s.count < 2 ^ 32

lemma handledEvent_armed (s : Sys) (h : Armed s) :
    handledEvent s =
      { s with
        timer := { s.timer with events_compare0 := false },
        output := s.output ++ [s.count],
        count := (s.count + 1) % 2 ^ 32 } := by
  obtain ⟨hen, hreg, hbit, -⟩ := h
  have h1 : (raiseCompare s).nvicEnabled = true := hen
  have h2 : (raiseCompare s).nvicHandler = some timer0HandlerId := hreg
  have h3 : (raiseCompare s).timer.events_compare0 = true := rfl
  have h4 : (raiseCompare s).timer.intenset &&& TIMER_INTENSET_COMPARE0_Msk ≠ 0 := hbit
  show dispatch (raiseCompare s) = _
  simp only [dispatch, runHandler, TIMER0_IRQHandler]
  rw [if_pos h1, if_pos h2, if_pos (And.intro h3 h4)]
  rfl

lemma handledEvent_output (s : Sys) (h : Armed s) :
    (handledEvent s).output = s.output ++ [s.count] := by
  rw [handledEvent_armed s h]

lemma handledEvent_count (s : Sys) (h : Armed s) :
    (handledEvent s).count = (s.count + 1) % 2 ^ 32 := by
  rw [handledEvent_armed s h]

/-- The handler never writes the compare register, whatever the state. -/
lemma handledEvent_cc0 (s : Sys) :
    (handledEvent s).timer.cc0 = s.timer.cc0 := by
  simp only [handledEvent, dispatch, runHandler, TIMER0_IRQHandler, raiseCompare]
  split_ifs <;> rfl

lemma armed_handledEvent (s : Sys) (h : Armed s) : Armed (handledEvent s) := by
  rw [handledEvent_armed s h]
  exact ⟨h.1, h.2.1, h.2.2.1, Nat.mod_lt _ (by decide)⟩

lemma handledEvents_succ (n : Nat) (s : Sys) :
    handledEvents (n + 1) s = handledEvents n (handledEvent s) := rfl

lemma handledEvents_succ_outer (n : Nat) (s : Sys) :
    handledEvents (n + 1) s = handledEvent (handledEvents n s) := by
  induction n generalizing s with
  | zero => rfl
  | succ n ih =>
    rw [handledEvents_succ (n + 1) s, ih (handledEvent s), ← handledEvents_succ]

lemma armed_handledEvents (n : Nat) (s : Sys) (h : Armed s) :
    Armed (handledEvents n s) := by
  induction n generalizing s with
  | zero => exact h
  | succ n ih => rw [handledEvents_succ]; exact ih _ (armed_handledEvent s h)

/-- Counter after a run of `n` handled events from an armed state. -/
lemma handledEvents_count (n : Nat) (s : Sys) (h : Armed s) :
    (handledEvents n s).count = (s.count + n) % 2 ^ 32 := by
  induction n with
  | zero => simpa [handledEvents] using (Nat.mod_eq_of_lt h.2.2.2).symm
  | succ n ih =>
    rw [handledEvents_succ_outer, handledEvent_count _ (armed_handledEvents n s h), ih]
    omega

/-- Output after a run of `n` handled events from an armed state: the values
`count, count+1, …, count+n-1` (mod 2^32) get reported in order. -/
lemma handledEvents_output (n : Nat) (s : Sys) (h : Armed s) :
    (handledEvents n s).output =
      s.output ++ (List.range n).map (fun i => (s.count + i) % 2 ^ 32) := by
  induction n with
  | zero => simp [handledEvents]
  | succ n ih =>
    rw [handledEvents_succ_outer, handledEvent_output _ (armed_handledEvents n s h), ih,
      handledEvents_count n s h, List.range_succ, List.map_append, List.append_assoc]
    simp

/-- `n` handled events leave the compare register untouched. -/
lemma handledEvents_cc0 (n : Nat) (s : Sys) :
    (handledEvents n s).timer.cc0 = s.timer.cc0 := by
  induction n generalizing s with
  | zero => rfl
  | succ n ih => rw [handledEvents_succ, ih, handledEvent_cc0]

/-- `start` adds exactly the COMPARE0 bit (bit 16) to INTENSET. -/
lemma start_intenset (P h : Nat) (s : Sys) :
    (start P h s).timer.intenset = s.timer.intenset ||| 65536 := by
  show s.timer.intenset |||
      (TIMER_INTENSET_COMPARE0_Enabled <<< TIMER_INTENSET_COMPARE0_Pos) % 2 ^ 32 =
    s.timer.intenset ||| 65536
  congr 1

lemma startedSys_armed (P : Nat) : Armed (startedSys P) := by
  refine ⟨rfl, rfl, ?_, ?_⟩
  · show (start P timer0HandlerId initSys).timer.intenset &&&
        TIMER_INTENSET_COMPARE0_Msk ≠ 0
    rw [start_intenset]
    decide
  · show (0 : Nat) < 2 ^ 32
    decide

/-- Output of `n` handled events from the freshly started state. -/
lemma startedSys_output (P n : Nat) :
    (handledEvents n (startedSys P)).output =
      (List.range n).map (fun i => i % 2 ^ 32) := by
  have h := handledEvents_output n (startedSys P) (startedSys_armed P)
  have e1 : (startedSys P).output = [] := rfl
  have e2 : (startedSys P).count = 0 := rfl
  rw [e1, e2] at h
  simpa using h

/-- Counter after `n` handled events from the freshly started state. -/
lemma startedSys_count (P n : Nat) :
    (handledEvents n (startedSys P)).count = n % 2 ^ 32 := by
  have h := handledEvents_count n (startedSys P) (startedSys_armed P)
  have e2 : (startedSys P).count = 0 := rfl
  rw [e2] at h
  simpa using h

/-- Claim C2 (amended): the fired-event counter starts at 0, each handled
compare-match event reports the counter's current value and then increments
it, and the reported sequence is 0, 1, 2, … — strictly increasing by 1 per
invocation, one increment per handled event — for the first 2^32 handled
events (the counter is a 32-bit `unsigned int`, so the sequence wraps to 0
afterwards; see C10). -/
theorem C2_counter_sequence (P n : Nat) (h : n ≤ 2 ^ 32) :
    initSys.count = 0 ∧
    (handledEvents n (startedSys P)).output = List.range n ∧
    (handledEvents n (startedSys P)).count = n % 2 ^ 32 := by
  refine ⟨rfl, ?_, startedSys_count P n⟩
  rw [startedSys_output P n]
  have : ∀ i ∈ List.range n, i % 2 ^ 32 = i := by
    intro i hi
    exact Nat.mod_eq_of_lt (lt_of_lt_of_le (List.mem_range.mp hi) h)
  rw [List.map_congr_left this, List.map_id']

/-- Witness for C2 at P = 509, n = 3. -/
theorem C2_counter_sequence_witness :
    3 ≤ 2 ^ 32 ∧
    (initSys.count = 0 ∧
      (handledEvents 3 (startedSys 509)).output = List.range 3 ∧
      (handledEvents 3 (startedSys 509)).count = 3 % 2 ^ 32) :=
  ⟨by decide, C2_counter_sequence 509 3 (by decide)⟩

/-- Counterexample to C2 as stated: across all handled events the reported
sequence is not strictly increasing by 1 from 0 — after 2^32 + 1 handled
events the output is not `0, 1, …, 2^32`, because the 32-bit counter wraps
and the last reported value is 0 again. -/
theorem C2_counter_sequence_counterexample :
    (handledEvents (2 ^ 32 + 1) (startedSys 509)).output ≠
      List.range (2 ^ 32 + 1) := by
  intro heq
  rw [startedSys_output] at heq
  have h1 : ((List.range (2 ^ 32 + 1)).map (fun i => i % 2 ^ 32))[2 ^ 32]? =
      (List.range (2 ^ 32 + 1))[2 ^ 32]? := by rw [heq]
  rw [List.getElem?_map, List.getElem?_range (by omega)] at h1
  rw [Option.map_some'] at h1
  have h2 : 2 ^ 32 % 2 ^ 32 = 2 ^ 32 := Option.some_injective _ h1
  omega

/-- Claim C10: the fired-event counter is a 32-bit unsigned integer and each
handled event increments it modulo 2^32: after `n` handled events the counter
reads `n % 2^32` (hence in range), and on the event following the first 2^32
handled ones the reported value is 0 again, so the reported sequence is
strictly increasing only within a window of 2^32 events. -/
theorem C10_counter_wraps :
    (∀ P n : Nat,
      (handledEvents n (startedSys P)).count = n % 2 ^ 32 ∧
      (handledEvents n (startedSys P)).count < 2 ^ 32) ∧
    (handledEvents (2 ^ 32 + 1) (startedSys 509)).output =
      (handledEvents (2 ^ 32) (startedSys 509)).output ++ [0] := by
  constructor
  · intro P n
    refine ⟨startedSys_count P n, ?_⟩
    rw [startedSys_count P n]
    exact Nat.mod_lt _ (by decide)
  · rw [startedSys_output, startedSys_output, List.range_succ, List.map_append]
    simp

/-! ### Reachable states

Claim C4 quantifies over every reachable state, so we close the model under
runs: from program load, any sequence of `start` calls, `stop` calls and
hardware compare-match events. -/

/-- One observable step of a run of the program. -/
inductive Action where
  | astart (period : Nat) (handler : Nat)
  | astop
  | aevent
  deriving DecidableEq

/-- Execute one action. -/
def execAction (s : Sys) : Action → Sys
  | .astart p h => start p h s
  | .astop => stop s
  | .aevent => handledEvent s

/-- The state reached from program load by a sequence of actions. -/
def exec (as : List Action) : Sys :=
  as.foldl execAction initSys

/-- Ghost value tracking "the period of the most recent `start`, unless a
`stop` was issued later": `some p` right after `start p h`, `none` right
after `stop`, unchanged by events, initially `none`. -/
def ghostStep (g : Option Nat) : Action → Option Nat
  | .astart p _ => some p
  | .astop => none
  | .aevent => g

def ccGhost (as : List Action) : Option Nat :=
  as.foldl ghostStep none

/-- Step function shared by the two run predicates below: a `start` resets
the flag, a `stop` raises it, events leave it alone. -/
def stoppedStep (b : Bool) : Action → Bool
  | .astart _ _ => false
  | .astop => true
  | .aevent => b

/-- "The timer has been stopped via `stop` and never restarted" — the
right-hand side of C4 as stated (false before any `stop`). -/
def stoppedNeverRestarted (as : List Action) : Bool :=
  as.foldl stoppedStep false

/-- "No `start` has been issued since the last `stop` or since program
load" — the amended right-hand side (true on the empty run). -/
def sinceStop (as : List Action) : Bool :=
  as.foldl stoppedStep true

/-- Every `start` of the run receives a period in [1, 2^32-1]. -/
def goodPeriods (as : List Action) : Bool :=
  as.all fun a =>
    match a with
    | .astart p _ => decide (1 ≤ p ∧ p ≤ 2 ^ 32 - 1)
    | _ => true

/-- Compare-register value predicted by the ghost. -/
def ccOfGhost : Option Nat → Nat
  | some p => p % 2 ^ 32
  | none => 0

lemma exec_cc0_ghost (as : List Action) :
    ∀ (s : Sys) (g : Option Nat), s.timer.cc0 = ccOfGhost g →
      (as.foldl execAction s).timer.cc0 = ccOfGhost (as.foldl ghostStep g) := by
  induction as with
  | nil => intro s g h; exact h
  | cons a as ih =>
    intro s g h
    simp only [List.foldl_cons]
    apply ih
    cases a with
    | astart p hh => rfl
    | astop => rfl
    | aevent =>
      show (handledEvent s).timer.cc0 = ccOfGhost g
      rw [handledEvent_cc0]
      exact h

lemma exec_cc0 (as : List Action) :
    (exec as).timer.cc0 = ccOfGhost (ccGhost as) :=
  exec_cc0_ghost as initSys none rfl

lemma ghost_none_iff_aux (as : List Action) :
    ∀ (g : Option Nat) (b : Bool), (g = none ↔ b = true) →
      (as.foldl ghostStep g = none ↔ as.foldl stoppedStep b = true) := by
  induction as with
  | nil => intro g b h; exact h
  | cons a as ih =>
    intro g b h
    simp only [List.foldl_cons]
    apply ih
    cases a with
    | astart p hh => simp [ghostStep, stoppedStep]
    | astop => simp [ghostStep, stoppedStep]
    | aevent => exact h

lemma ccGhost_none_iff (as : List Action) :
    ccGhost as = none ↔ sinceStop as = true :=
  ghost_none_iff_aux as none true (by simp)

lemma ccGhost_some_bounds (as : List Action) :
    ∀ g : Option Nat, goodPeriods as = true →
      (∀ q, g = some q → 1 ≤ q ∧ q ≤ 2 ^ 32 - 1) →
      ∀ p, as.foldl ghostStep g = some p → 1 ≤ p ∧ p ≤ 2 ^ 32 - 1 := by
  induction as with
  | nil => intro g hgood hg p hp; exact hg p hp
  | cons a as ih =>
    intro g hgood hg p hp
    simp only [goodPeriods, List.all_cons, Bool.and_eq_true] at hgood
    rw [List.foldl_cons] at hp
    refine ih (ghostStep g a) hgood.2 ?_ p hp
    intro q hq
    cases a with
    | astart pp hh =>
      have hpp : pp = q := by
        simpa only [ghostStep, Option.some.injEq] using hq
      subst hpp
      exact of_decide_eq_true hgood.1
    | astop => simp [ghostStep] at hq
    | aevent => exact hg q hq

/-- Claim C4 (amended): in every reachable state, if the run keeps all
`start` periods in [1, 2^32-1], then the compare register holds the period of
the most recent `start` not followed by a `stop`, and it is zero if and only
if no `start` has been issued since the last `stop` or since program load.
(As stated, with "zero iff stopped via `stop` and never restarted" and
arbitrary periods, the claim fails at `start(0, h)`.) -/
theorem C4_cc0_invariant (as : List Action) (hgood : goodPeriods as = true) :
    ((exec as).timer.cc0 = 0 ↔ sinceStop as = true) ∧
    (∀ p, ccGhost as = some p → (exec as).timer.cc0 = p) := by
  have hcc := exec_cc0 as
  constructor
  · constructor
    · intro h0
      cases hg : ccGhost as with
      | none => exact (ccGhost_none_iff as).mp hg
      | some p =>
        exfalso
        obtain ⟨hb1, hb2⟩ := ccGhost_some_bounds as none hgood
          (by intro q hq; cases hq) p hg
        rw [hg] at hcc
        have h1 : ccOfGhost (some p) = 0 := by rw [← hcc]; exact h0
        have h2 : p % 2 ^ 32 = 0 := h1
        omega
    · intro hs
      rw [hcc, (ccGhost_none_iff as).mpr hs]
      rfl
  · intro p hp
    obtain ⟨hb1, hb2⟩ := ccGhost_some_bounds as none hgood
      (by intro q hq; cases hq) p hp
    rw [hcc, hp]
    show p % 2 ^ 32 = p
    omega

/-- Witness for C4 on the run `start(5, h); stop()`. -/
theorem C4_cc0_invariant_witness :
    goodPeriods [Action.astart 5 0, Action.astop] = true ∧
    (((exec [Action.astart 5 0, Action.astop]).timer.cc0 = 0 ↔
        sinceStop [Action.astart 5 0, Action.astop] = true) ∧
      (∀ p, ccGhost [Action.astart 5 0, Action.astop] = some p →
        (exec [Action.astart 5 0, Action.astop]).timer.cc0 = p)) :=
  ⟨by decide, C4_cc0_invariant [Action.astart 5 0, Action.astop] (by decide)⟩

/-- Counterexample to C4 as stated: after the run consisting of the single
call `start(0, h)` the compare register reads 0, yet the timer has not been
"stopped via `stop` and never restarted" — the claimed equivalence fails for
the period argument 0, which the claim explicitly includes. -/
theorem C4_cc0_invariant_counterexample :
    (exec [Action.astart 0 0]).timer.cc0 = 0 ∧
    stoppedNeverRestarted [Action.astart 0 0] = false := by
  decide

end TimerExample
